import Mathlib

/-!
Verification development for the goldenfish-backend order-placement core.

The definitions below are shallow embeddings of the TypeScript/JavaScript
sources:
  * src/utils/orderNumber.ts       (order number generation / validation)
  * src/services/DeliveryPricingService.js (delivery fee engine)
  * src/services/orderService.ts   (order creation orchestration)
  * src/services/emailService.ts   (confirmation email)
Money and distance values are modelled as rationals, JavaScript strings as
Lean strings (lists of characters), the external collaborators (redis
counter, Postgres client, Google distance lookup, resend email API) as
explicit parameters/oracles.
-/

namespace Goldenfish

/-! ### Order number generation (src/utils/orderNumber.ts)

`config.orderNumberPrefix` (src/config/environment.ts) defaults to "GF". -/

def orderNumPfx : String := "GF"

/-- Reference decimal digit list (most significant digit first) of a natural
number; this is what JavaScript's Number.prototype.toString() produces for
a nonnegative integer, and (proved below) what Lean's Nat.repr produces. -/
def decChars (n : Nat) : List Char :=
  if n < 10 then [Nat.digitChar n]
  else decChars (n / 10) ++ [Nat.digitChar (n % 10)]
decreasing_by exact Nat.div_lt_self (by omega) (by omega)

/-- JavaScript Number.prototype.toString() on a natural number: the decimal
numeral.  Modelled by Nat.repr, whose digit list is decChars (lemma below). -/
def jsNatToString (n : Nat) : String := Nat.repr n

/-- JavaScript String.prototype.padStart(target, c): left-pad with c up to
length target (no-op when the string is already long enough). -/
def jsPadStart (s : String) (target : Nat) (c : Char) : String :=
  ⟨List.replicate (target - s.data.length) c ++ s.data⟩

/-- JavaScript String.prototype.slice(-2): the last two characters (the whole
string when it is shorter than two characters). -/
def jsSliceLast2 (s : String) : String :=
  ⟨s.data.drop (s.data.length - 2)⟩

/-- The date key computed by generateDailySequential:
year.toString().slice(-2) + (month).toString().padStart(2,'0')
+ day.toString().padStart(2,'0'), where month is already the 1-based month
(the source writes now.getMonth() + 1). -/
def dateKey (year month day : Nat) : String :=
  jsSliceLast2 (jsNatToString year) ++ jsPadStart (jsNatToString month) 2 '0'
    ++ jsPadStart (jsNatToString day) 2 '0'

/-- OrderNumberGenerator.generateDailySequential, given the current date and
the value returned by the atomic counter increment (redis.incr): the template
literal PREFIX + dateKey + "-" + counter padded to at least three digits. -/
def generateDailySequential (year month day counter : Nat) : String :=
  orderNumPfx ++ dateKey year month day ++ "-"
    ++ jsPadStart (jsNatToString counter) 3 '0'

/-! Decimal digit arithmetic used to settle uniqueness of the generated
numbers: decVal is a left-to-right decimal reading of a character list. -/

def decVal (l : List Char) : Nat :=
  l.foldl (fun acc c => 10 * acc + (c.toNat - 48)) 0

theorem digitChar_toNat : ∀ m, m < 10 → (Nat.digitChar m).toNat = 48 + m := by decide

theorem toDigitsCore_succ (b fuel n : Nat) (ds : List Char) :
    Nat.toDigitsCore b (fuel + 1) n ds =
      if n / b = 0 then Nat.digitChar (n % b) :: ds
      else Nat.toDigitsCore b fuel (n / b) (Nat.digitChar (n % b) :: ds) := rfl

theorem decChars_eq_of_lt {n : Nat} (h : n < 10) : decChars n = [Nat.digitChar n] := by
  rw [decChars]
  simp [h]

theorem decChars_eq_of_ge {n : Nat} (h : ¬ n < 10) :
    decChars n = decChars (n / 10) ++ [Nat.digitChar (n % 10)] := by
  rw [decChars]
  simp [h]

theorem decVal_decChars (n : Nat) : decVal (decChars n) = n := by
  induction n using Nat.strong_induction_on with
  | _ n ih =>
    by_cases h : n < 10
    · rw [decChars_eq_of_lt h]
      simp [decVal, digitChar_toNat n h]
    · rw [decChars_eq_of_ge h]
      have hd : n / 10 < n := Nat.div_lt_self (by omega) (by omega)
      have hrec := ih (n / 10) hd
      simp only [decVal, List.foldl_append] at hrec ⊢
      rw [hrec]
      rw [List.foldl_cons, List.foldl_nil]
      rw [digitChar_toNat (n % 10) (Nat.mod_lt n (by omega))]
      omega

theorem decVal_replicate_zero (k : Nat) (l : List Char) :
    decVal (List.replicate k '0' ++ l) = decVal l := by
  induction k with
  | zero => simp
  | succ k ih =>
    simp only [List.replicate_succ, List.cons_append, decVal, List.foldl_cons] at ih ⊢
    simpa using ih

/-- The digit list of Nat.repr is decChars.  Bridges the fuel-based core
implementation (Nat.toDigitsCore) to the reference recursion. -/
theorem toDigitsCore_eq_decChars :
    ∀ (fuel n : Nat) (ds : List Char), n < 10 ^ (fuel + 1) →
      Nat.toDigitsCore 10 (fuel + 1) n ds = decChars n ++ ds := by
  intro fuel
  induction fuel with
  | zero =>
    intro n ds h
    have h10 : n < 10 := by simpa using h
    have hdiv : n / 10 = 0 := Nat.div_eq_of_lt h10
    have hmod : n % 10 = n := Nat.mod_eq_of_lt h10
    rw [toDigitsCore_succ, hdiv, if_pos rfl, hmod, decChars_eq_of_lt h10]
    rfl
  | succ fuel ih =>
    intro n ds h
    by_cases h10 : n < 10
    · have hdiv : n / 10 = 0 := Nat.div_eq_of_lt h10
      have hmod : n % 10 = n := Nat.mod_eq_of_lt h10
      rw [toDigitsCore_succ, hdiv, if_pos rfl, hmod, decChars_eq_of_lt h10]
      rfl
    · have hdiv : ¬ n / 10 = 0 := by omega
      have hlt : n / 10 < 10 ^ (fuel + 1) := by
        rw [Nat.div_lt_iff_lt_mul (by omega)]
        calc n < 10 ^ (fuel + 1 + 1) := h
        _ = 10 ^ (fuel + 1) * 10 := by ring
      have hrec := ih (n / 10) (Nat.digitChar (n % 10) :: ds) hlt
      rw [toDigitsCore_succ, if_neg hdiv, hrec, decChars_eq_of_ge h10, List.append_assoc]
      rfl

theorem repr_data_eq_decChars (n : Nat) : (Nat.repr n).data = decChars n := by
  have hlt : n < 10 ^ (n + 1) := by
    calc n < 2 ^ n := Nat.lt_two_pow n
    _ ≤ 10 ^ n := Nat.pow_le_pow_left (by omega) n
    _ ≤ 10 ^ (n + 1) := Nat.pow_le_pow_right (by omega) (by omega)
  have := toDigitsCore_eq_decChars n n [] hlt
  simp only [Nat.repr, Nat.toDigits]
  rw [this]
  simp [List.asString]

/-- C1 core fact: zero-padding the decimal numeral to a minimum width is
injective in the numeral's value. -/
theorem padded_repr_injective (width : Nat) {c₁ c₂ : Nat}
    (h : (jsPadStart (jsNatToString c₁) width '0').data
       = (jsPadStart (jsNatToString c₂) width '0').data) : c₁ = c₂ := by
  have h' : decVal ((jsPadStart (jsNatToString c₁) width '0').data)
      = decVal ((jsPadStart (jsNatToString c₂) width '0').data) := by rw [h]
  simp only [jsPadStart, jsNatToString, repr_data_eq_decChars,
    decVal_replicate_zero, decVal_decChars] at h'
  exact h'

/-- C1: within one date key, the formatted order number is injective in the
sequence value returned by the counter store's atomic increment, so any
number of concurrent calls that receive distinct counter values receive
pairwise distinct order numbers. -/
theorem claim_C1_order_numbers_distinct (year month day : Nat) {c₁ c₂ : Nat}
    (hne : c₁ ≠ c₂) :
    generateDailySequential year month day c₁ ≠ generateDailySequential year month day c₂ := by
  intro heq
  apply hne
  have hdata : (generateDailySequential year month day c₁).data
      = (generateDailySequential year month day c₂).data := by rw [heq]
  simp only [generateDailySequential, String.data_append, List.append_assoc] at hdata
  have hpad := List.append_cancel_left (List.append_cancel_left (List.append_cancel_left hdata))
  exact padded_repr_injective 3 hpad

/-- Witness for C1 at concrete inputs: on 2025-10-12, counter values 1 and 2
give different order numbers. -/
theorem claim_C1_witness :
    generateDailySequential 2025 10 12 1 ≠ generateDailySequential 2025 10 12 2 :=
  claim_C1_order_numbers_distinct 2025 10 12 (by decide)

/-! ### Order number format validation (OrderNumberGenerator.isValidFormat)

The source tests the order number against three regular expressions (with
the configured "GF" interpolated):
  daily sequential  ^GF\d\x7b6\x7d-\d\x7b3\x7d$
  long random       ^GF-[A-Z0-9]\x7b12\x7d$
  timestamp         ^GF\d\x7b8,\x7d$
Each is modelled as a decidable predicate on the character list. -/

def isDigitChar (c : Char) : Bool := decide ('0' ≤ c) && decide (c ≤ '9')

def isUpperOrDigit (c : Char) : Bool :=
  (decide ('A' ≤ c) && decide (c ≤ 'Z')) || (decide ('0' ≤ c) && decide (c ≤ '9'))

/-- The daily-sequential regular expression: GF, six digits, a dash, exactly
three digits. -/
def matchDailyFormat (l : List Char) : Bool :=
  decide (l.length = 12) && decide (l.take 2 = ['G', 'F']) &&
    ((l.drop 2).take 6).all isDigitChar && decide ((l.drop 8).take 1 = ['-']) &&
    (l.drop 9).all isDigitChar

/-- The long-random regular expression: GF, a dash, twelve characters in
[A-Z0-9]. -/
def matchLongRandomFormat (l : List Char) : Bool :=
  decide (l.length = 15) && decide (l.take 3 = ['G', 'F', '-']) &&
    (l.drop 3).all isUpperOrDigit

/-- The timestamp regular expression: GF followed by eight or more digits. -/
def matchTimestampFormat (l : List Char) : Bool :=
  decide (l.take 2 = ['G', 'F']) && decide (8 ≤ (l.drop 2).length) &&
    (l.drop 2).all isDigitChar

/-- OrderNumberGenerator.isValidFormat: true when any of the three patterns
matches. -/
def isValidFormat (s : String) : Bool :=
  matchDailyFormat s.data || matchLongRandomFormat s.data || matchTimestampFormat s.data

/-! Digit-list length and digit-character facts needed for C10. -/

theorem decChars_ne_nil (n : Nat) : decChars n ≠ [] := by
  by_cases h : n < 10
  · rw [decChars_eq_of_lt h]
    simp
  · rw [decChars_eq_of_ge h]
    simp

theorem digitChar_isDigit : ∀ m, m < 10 → isDigitChar (Nat.digitChar m) = true := by decide

theorem decChars_digits (n : Nat) : ∀ ch ∈ decChars n, isDigitChar ch = true := by
  induction n using Nat.strong_induction_on with
  | _ n ih =>
    by_cases h : n < 10
    · rw [decChars_eq_of_lt h]
      intro ch hch
      rw [List.mem_singleton] at hch
      rw [hch]
      exact digitChar_isDigit n h
    · rw [decChars_eq_of_ge h]
      intro ch hch
      rcases List.mem_append.1 hch with hl | hr
      · exact ih (n / 10) (Nat.div_lt_self (by omega) (by omega)) ch hl
      · rw [List.mem_singleton] at hr
        rw [hr]
        exact digitChar_isDigit (n % 10) (Nat.mod_lt n (by omega))

theorem decChars_length_le : ∀ (k n : Nat), n < 10 ^ (k + 1) → (decChars n).length ≤ k + 1 := by
  intro k
  induction k with
  | zero =>
    intro n h
    have h10 : n < 10 := by simpa using h
    rw [decChars_eq_of_lt h10]
    simp
  | succ k ih =>
    intro n h
    by_cases h10 : n < 10
    · rw [decChars_eq_of_lt h10]
      simp
    · rw [decChars_eq_of_ge h10]
      have hlt : n / 10 < 10 ^ (k + 1) := by
        rw [Nat.div_lt_iff_lt_mul (by omega)]
        calc n < 10 ^ (k + 1 + 1) := h
        _ = 10 ^ (k + 1) * 10 := by ring
      have := ih (n / 10) hlt
      simp only [List.length_append, List.length_cons, List.length_nil]
      omega

theorem decChars_length_ge : ∀ (k n : Nat), 10 ^ k ≤ n → k + 1 ≤ (decChars n).length := by
  intro k
  induction k with
  | zero =>
    intro n _
    have := decChars_ne_nil n
    have := List.length_pos.2 this
    omega
  | succ k ih =>
    intro n h
    have h10 : ¬ n < 10 := by
      intro hc
      have h1 : 10 ≤ 10 ^ (k + 1) := by
        calc (10 : Nat) = 10 ^ 1 := by ring
        _ ≤ 10 ^ (k + 1) := Nat.pow_le_pow_right (by omega) (by omega)
      omega
    rw [decChars_eq_of_ge h10]
    have hdiv : 10 ^ k ≤ n / 10 := by
      rw [Nat.le_div_iff_mul_le (by omega)]
      calc 10 ^ k * 10 = 10 ^ (k + 1) := by ring
      _ ≤ n := h
    have := ih (n / 10) hdiv
    simp only [List.length_append, List.length_cons, List.length_nil]
    omega

/-- The counter padded to at least three digits: for counters up to 999 the
result is exactly three digit characters. -/
theorem pad3_spec_le {c : Nat} (hc : c ≤ 999) :
    (jsPadStart (jsNatToString c) 3 '0').data.length = 3 ∧
      ∀ ch ∈ (jsPadStart (jsNatToString c) 3 '0').data, isDigitChar ch = true := by
  have hlen : (decChars c).length ≤ 3 := decChars_length_le 2 c (by omega)
  have hpos : 1 ≤ (decChars c).length := by
    have := List.length_pos.2 (decChars_ne_nil c)
    omega
  constructor
  · simp only [jsPadStart, jsNatToString, repr_data_eq_decChars, List.length_append,
      List.length_replicate]
    omega
  · intro ch hch
    simp only [jsPadStart, jsNatToString, repr_data_eq_decChars] at hch
    rcases List.mem_append.1 hch with hl | hr
    · rw [List.eq_of_mem_replicate hl]
      decide
    · exact decChars_digits c ch hr

/-- For counters of 1000 and beyond, padStart is the identity and the digit
string has at least four characters. -/
theorem pad3_spec_ge {c : Nat} (hc : 1000 ≤ c) :
    (jsPadStart (jsNatToString c) 3 '0').data = decChars c ∧
      4 ≤ (decChars c).length := by
  have hlen : 4 ≤ (decChars c).length := by
    have := decChars_length_ge 3 c (by omega)
    omega
  constructor
  · simp only [jsPadStart, jsNatToString, repr_data_eq_decChars]
    have : 3 - (decChars c).length = 0 := by omega
    rw [this]
    simp
  · exact hlen

/-- The computed date key consists of exactly six digit characters, for any
calendar date from year 10 on. -/
theorem dateKey_spec {y m d : Nat} (hy : 10 ≤ y) (hm : m ≤ 99) (hd : d ≤ 99) :
    (dateKey y m d).data.length = 6 ∧
      ∀ ch ∈ (dateKey y m d).data, isDigitChar ch = true := by
  have hy2 : 2 ≤ (decChars y).length := decChars_length_ge 1 y (by omega)
  have hm2 : (decChars m).length ≤ 2 := decChars_length_le 1 m (by omega)
  have hm1 : 1 ≤ (decChars m).length := by
    have := List.length_pos.2 (decChars_ne_nil m)
    omega
  have hd2 : (decChars d).length ≤ 2 := decChars_length_le 1 d (by omega)
  have hd1 : 1 ≤ (decChars d).length := by
    have := List.length_pos.2 (decChars_ne_nil d)
    omega
  constructor
  · simp only [dateKey, String.data_append, jsSliceLast2, jsPadStart, jsNatToString,
      repr_data_eq_decChars, List.length_append, List.length_replicate, List.length_drop]
    omega
  · intro ch hch
    simp only [dateKey, String.data_append, jsSliceLast2, jsPadStart, jsNatToString,
      repr_data_eq_decChars, List.mem_append] at hch
    rcases hch with (hch | hch | hch) | hch | hch
    · exact decChars_digits y ch (List.mem_of_mem_drop hch)
    · rw [List.eq_of_mem_replicate hch]
      decide
    · exact decChars_digits m ch hch
    · rw [List.eq_of_mem_replicate hch]
      decide
    · exact decChars_digits d ch hch

/-- Normal form of the generated order number's character list. -/
theorem gen_data (y m d c : Nat) :
    (generateDailySequential y m d c).data
      = 'G' :: 'F' :: ((dateKey y m d).data
          ++ '-' :: (jsPadStart (jsNatToString c) 3 '0').data) := by
  simp only [generateDailySequential, String.data_append, List.append_assoc]
  rfl

/-- C10: round-trip between generation and validation.  A daily-sequential
number with counter 1..999 passes isValidFormat; from counter 1000 on (the
1000th order of a day) the generated number fails isValidFormat, because the
daily pattern accepts exactly three sequence digits while the generator pads
to a minimum of three. -/
theorem claim_C10_roundtrip_validation (y m d c : Nat)
    (hy : 10 ≤ y) (hm : m ≤ 99) (hd : d ≤ 99) (_hc : 1 ≤ c) :
    (c ≤ 999 → isValidFormat (generateDailySequential y m d c) = true) ∧
    (1000 ≤ c → isValidFormat (generateDailySequential y m d c) = false) := by
  obtain ⟨hdk6, hdkdig⟩ := dateKey_spec hy hm hd
  constructor
  · intro hle
    obtain ⟨hp3, hpdig⟩ := pad3_spec_le hle
    have hdaily : matchDailyFormat (generateDailySequential y m d c).data = true := by
      rw [gen_data]
      set dk := (dateKey y m d).data with hdk
      set pad := (jsPadStart (jsNatToString c) 3 '0').data with hpad
      have htake2 : ('G' :: 'F' :: (dk ++ '-' :: pad)).take 2 = ['G', 'F'] := by
        simp
      have hdrop2 : ('G' :: 'F' :: (dk ++ '-' :: pad)).drop 2 = dk ++ '-' :: pad := by
        simp
      have htake6 : (dk ++ '-' :: pad).take 6 = dk := by
        rw [← hdk6, List.take_left]
      have hdrop8 : ('G' :: 'F' :: (dk ++ '-' :: pad)).drop 8 = '-' :: pad := by
        have h1 : ('G' :: 'F' :: (dk ++ '-' :: pad)).drop 8
            = (dk ++ '-' :: pad).drop 6 := by
          simp
        rw [h1, List.drop_left' hdk6]
      have hdrop9 : ('G' :: 'F' :: (dk ++ '-' :: pad)).drop 9 = pad := by
        have h1 : ('G' :: 'F' :: (dk ++ '-' :: pad)).drop 9
            = (dk ++ '-' :: pad).drop 7 := by
          simp
        have h2 : (dk ++ '-' :: pad).drop 7 = ('-' :: pad).drop 1 := by
          have := List.drop_drop 1 6 (dk ++ '-' :: pad)
          rw [List.drop_left' hdk6] at this
          rw [← this]
        rw [h1, h2]
        simp
      have hlen : ('G' :: 'F' :: (dk ++ '-' :: pad)).length = 12 := by
        simp only [List.length_cons, List.length_append]
        omega
      simp only [matchDailyFormat, Bool.and_eq_true, decide_eq_true_eq, List.all_eq_true]
      refine ⟨⟨⟨⟨hlen, htake2⟩, ?_⟩, ?_⟩, ?_⟩
      · intro x hx
        rw [hdrop2, htake6] at hx
        exact hdkdig x hx
      · rw [hdrop8]
        rfl
      · intro x hx
        rw [hdrop9] at hx
        exact hpdig x hx
    simp [isValidFormat, hdaily]
  · intro hge
    obtain ⟨hpadeq, hp4⟩ := pad3_spec_ge hge
    rw [isValidFormat, gen_data, hpadeq]
    set dk := (dateKey y m d).data with hdk
    set dc := decChars c with hdc
    obtain ⟨ch0, dk', hcons⟩ := List.exists_cons_of_ne_nil
      (show dk ≠ [] by intro hnil; rw [hnil] at hdk6; simp at hdk6)
    have hch0 : isDigitChar ch0 = true := hdkdig ch0 (by rw [hcons]; exact List.mem_cons_self _ _)
    have hch0ne : ch0 ≠ '-' := by
      intro hbad
      rw [hbad] at hch0
      simp [isDigitChar] at hch0
    have hdaily : matchDailyFormat ('G' :: 'F' :: (dk ++ '-' :: dc)) = false := by
      apply Bool.eq_false_iff.2
      intro hmatch
      simp only [matchDailyFormat, Bool.and_eq_true, decide_eq_true_eq,
        List.all_eq_true] at hmatch
      obtain ⟨⟨⟨⟨h12, _⟩, _⟩, _⟩, _⟩ := hmatch
      simp only [List.length_cons, List.length_append] at h12
      omega
    have hlong : matchLongRandomFormat ('G' :: 'F' :: (dk ++ '-' :: dc)) = false := by
      have htake3 : ('G' :: 'F' :: (dk ++ '-' :: dc)).take 3 = ['G', 'F', ch0] := by
        rw [hcons]
        simp
      apply Bool.eq_false_iff.2
      intro hmatch
      simp only [matchLongRandomFormat, Bool.and_eq_true, decide_eq_true_eq,
        List.all_eq_true] at hmatch
      obtain ⟨⟨_, htk3⟩, _⟩ := hmatch
      rw [htake3] at htk3
      apply hch0ne
      injection htk3 with h1 h2
      injection h2 with h3 h4
      injection h4 with h5 h6
    have hts : matchTimestampFormat ('G' :: 'F' :: (dk ++ '-' :: dc)) = false := by
      have hmem : '-' ∈ ('G' :: 'F' :: (dk ++ '-' :: dc)).drop 2 := by
        simp
      apply Bool.eq_false_iff.2
      intro hmatch
      simp only [matchTimestampFormat, Bool.and_eq_true, decide_eq_true_eq,
        List.all_eq_true] at hmatch
      obtain ⟨⟨_, _⟩, hall⟩ := hmatch
      have := hall '-' hmem
      simp [isDigitChar] at this
    rw [hdaily, hlong, hts]
    rfl

/-- Witness for C10: on 2025-10-12, counter 7 yields a valid number and
counter 1000 yields an invalid one. -/
theorem claim_C10_witness :
    isValidFormat (generateDailySequential 2025 10 12 7) = true ∧
      isValidFormat (generateDailySequential 2025 10 12 1000) = false :=
  ⟨(claim_C10_roundtrip_validation 2025 10 12 7 (by decide) (by decide) (by decide)
      (by decide)).1 (by decide),
   (claim_C10_roundtrip_validation 2025 10 12 1000 (by decide) (by decide) (by decide)
      (by decide)).2 (by decide)⟩

/-! ### Delivery pricing engine (src/services/DeliveryPricingService.js)

Money, distances and durations are rationals.  The Google Distance Matrix
collaborator (getDistanceFromGoogle) is an oracle parameter of type
Except String GoogleDistance: ok carries the successful lookup (meters and
seconds), error carries the thrown error's message (API failure, element
failure, network failure).  Array.prototype.sort with a comparator is a
stable sort; it is modelled by List.insertionSort, which is stable. -/

structure PostcodeRule where
  postcode_pattern : String
  fee : ℚ
  deriving DecidableEq

structure DistanceRule where
  max_distance : ℚ
  fee : ℚ
  deriving DecidableEq

inductive DiscountKind where
  | percentage
  | fixed_reduction
  | free_delivery
  deriving DecidableEq

structure ValueDiscount where
  min_order_value : ℚ
  kind : DiscountKind
  value : ℚ
  deriving DecidableEq

structure MinimumOrderRule where
  applies_to : String
  postcode_pattern : String
  minimum_amount : ℚ
  deriving DecidableEq

structure RestaurantConfig where
  pricing_mode : String
  restaurant_address : String
  distance_rules : Option (List DistanceRule)
  postcode_rules : Option (List PostcodeRule)
  order_value_discounts : Option (List ValueDiscount)
  minimum_order_rules : Option (List MinimumOrderRule)
  default_delivery_fee : Option ℚ
  preparation_time_minutes : Option ℚ
  deriving DecidableEq

/-- Result of one Google Distance Matrix lookup: distance in meters and
duration in seconds. -/
structure GoogleDistance where
  distance : ℚ
  duration : ℚ
  deriving DecidableEq

/-- JavaScript whitespace class \s (the characters relevant to postcodes). -/
def jsIsWhitespace (c : Char) : Bool :=
  decide (c = ' ') || decide (c = '\t') || decide (c = '\n') || decide (c = '\r')

/-- JavaScript String.prototype.toUpperCase() on ASCII text. -/
def upperStr (s : String) : String := ⟨s.data.map Char.toUpper⟩

/-- DeliveryPricingService.normalizePostcode: strip whitespace, uppercase,
then re-insert a single space before the final three characters when the
cleaned string is longer than three characters. -/
def normalizePostcode (postcode : String) : String :=
  let cleaned := (postcode.data.filter (fun c => ! jsIsWhitespace c)).map Char.toUpper
  if 3 < cleaned.length then
    ⟨cleaned.take (cleaned.length - 3) ++ ' ' :: cleaned.drop (cleaned.length - 3)⟩
  else ⟨cleaned⟩

/-- Descending pattern length: the sort comparator
(a, b) => b.postcode_pattern.length - a.postcode_pattern.length. -/
def byPatternLenDesc (a b : PostcodeRule) : Prop :=
  b.postcode_pattern.length ≤ a.postcode_pattern.length

instance : DecidableRel byPatternLenDesc := fun a b =>
  inferInstanceAs (Decidable (b.postcode_pattern.length ≤ a.postcode_pattern.length))

instance : IsTotal PostcodeRule byPatternLenDesc :=
  ⟨fun a b => (Nat.le_total b.postcode_pattern.length a.postcode_pattern.length).symm.symm⟩

instance : IsTrans PostcodeRule byPatternLenDesc :=
  ⟨fun _ _ _ hab hbc => Nat.le_trans hbc hab⟩

/-- DeliveryPricingService.calculatePostcodeBasedFee.  Steps, as in the
source: exact match of the uppercased pattern against the normalized
postcode; else among rules whose uppercased pattern is a prefix of the
normalized postcode, the one with the longest pattern (stable sort by
descending pattern length, first element); else the default fee when that
is configured and nonzero (JS truthiness); else the thrown business error. -/
def calculatePostcodeBasedFee (rules : List PostcodeRule) (defaultFee : Option ℚ)
    (customerPostcode : String) : Except String (ℚ × String) :=
  let np := normalizePostcode customerPostcode
  match rules.find? (fun r => upperStr r.postcode_pattern == np) with
  | some r => Except.ok (r.fee, r.postcode_pattern)
  | none =>
    match List.insertionSort byPatternLenDesc
        (rules.filter (fun r => (upperStr r.postcode_pattern).data.isPrefixOf np.data)) with
    | m :: _ => Except.ok (m.fee, m.postcode_pattern)
    | [] =>
      match defaultFee with
      | some f => if f ≠ 0 then Except.ok (f, "default") else Except.error "Postcode not in delivery area"
      | none => Except.error "Postcode not in delivery area"

/-- Ascending distance bound: the sort comparator
(a, b) => a.max_distance - b.max_distance. -/
def byMaxDistanceAsc (a b : DistanceRule) : Prop :=
  a.max_distance ≤ b.max_distance

instance : DecidableRel byMaxDistanceAsc := fun a b =>
  inferInstanceAs (Decidable (a.max_distance ≤ b.max_distance))

instance : IsTotal DistanceRule byMaxDistanceAsc :=
  ⟨fun a b => le_total a.max_distance b.max_distance⟩

instance : IsTrans DistanceRule byMaxDistanceAsc :=
  ⟨fun _ _ _ hab hbc => le_trans hab hbc⟩

/-- The loop body of calculateDistanceBasedFee: return the first rule in
the given order whose max_distance bound is at least the distance. -/
def firstTierFor (distanceKm : ℚ) : List DistanceRule → Option DistanceRule
  | [] => none
  | rule :: rest =>
    if distanceKm ≤ rule.max_distance then some rule else firstTierFor distanceKm rest

/-- DeliveryPricingService.calculateDistanceBasedFee: require the API key,
perform the lookup (the oracle), convert meters to kilometers, then return
the fee of the first tier (ascending by max_distance) whose bound is at
least the distance; past the largest bound the source throws (the thrown
message interpolates the largest bound; here a fixed message stands for
it, the claims only inspect success/failure). -/
def calculateDistanceBasedFee (hasApiKey : Bool) (rules : List DistanceRule)
    (distLookup : Except String GoogleDistance) : Except String (ℚ × ℚ) :=
  if ! hasApiKey then Except.error "Google Maps API key not configured"
  else
    match distLookup with
    | Except.error e => Except.error e
    | Except.ok dres =>
      let distanceKm := dres.distance / 1000
      match firstTierFor distanceKm (List.insertionSort byMaxDistanceAsc rules) with
      | some rule => Except.ok (rule.fee, distanceKm)
      | none => Except.error "Delivery not available beyond the maximum distance"

/-- Descending minimum order value: the sort comparator
(a, b) => b.min_order_value - a.min_order_value. -/
def byMinValueDesc (a b : ValueDiscount) : Prop :=
  b.min_order_value ≤ a.min_order_value

instance : DecidableRel byMinValueDesc := fun a b =>
  inferInstanceAs (Decidable (b.min_order_value ≤ a.min_order_value))

instance : IsTotal ValueDiscount byMinValueDesc :=
  ⟨fun a b => (le_total b.min_order_value a.min_order_value).symm.symm⟩

instance : IsTrans ValueDiscount byMinValueDesc :=
  ⟨fun _ _ _ hab hbc => le_trans hbc hab⟩

/-- The transformation a single satisfied discount rule applies to the base
fee (the three branches of the source's loop body). -/
def applyDiscountTo (d : ValueDiscount) (baseFee : ℚ) : ℚ :=
  match d.kind with
  | DiscountKind.percentage => baseFee * (1 - d.value / 100)
  | DiscountKind.fixed_reduction => max 0 (baseFee - d.value)
  | DiscountKind.free_delivery => 0

/-- The loop body of applyOrderValueDiscounts: the first rule in the given
order whose min_order_value threshold the order value meets. -/
def firstDiscountFor (orderValue : ℚ) : List ValueDiscount → Option ValueDiscount
  | [] => none
  | d :: rest =>
    if d.min_order_value ≤ orderValue then some d else firstDiscountFor orderValue rest

/-- DeliveryPricingService.applyOrderValueDiscounts: iterate the discounts
sorted descending by min_order_value; the first rule whose threshold the
order value meets returns its transformed fee; otherwise the base fee. -/
def applyOrderValueDiscounts (baseFee orderValue : ℚ) (discounts : List ValueDiscount) : ℚ :=
  match firstDiscountFor orderValue (List.insertionSort byMinValueDesc discounts) with
  | some d => applyDiscountTo d baseFee
  | none => baseFee

structure MinimumOrderCheck where
  required : ℚ
  current : ℚ
  met : Bool
  shortfall : ℚ
  deriving DecidableEq

/-- DeliveryPricingService.checkMinimumOrder: first rule in declaration
order whose scope applies (all, or postcode prefix of the raw customer
postcode) fixes the requirement. -/
def checkMinimumOrder (orderValue : ℚ) (rules : List MinimumOrderRule)
    (customerPostcode : String) : MinimumOrderCheck :=
  match rules.find? (fun r => r.applies_to == "all"
      || (r.applies_to == "postcode" && customerPostcode.startsWith r.postcode_pattern)) with
  | some r =>
    { required := r.minimum_amount, current := orderValue,
      met := decide (r.minimum_amount ≤ orderValue),
      shortfall := max 0 (r.minimum_amount - orderValue) }
  | none => { required := 0, current := orderValue, met := true, shortfall := 0 }

/-- Math.max over the rules' max_distance (none models the empty spread,
where Math.max() is -Infinity and every comparison distance <= -Infinity
is false). -/
def maxDistanceOf : List DistanceRule → Option ℚ
  | [] => none
  | r :: rs => some ((rs.map (fun x => x.max_distance)).foldl max r.max_distance)

/-- Math.round: round half toward positive infinity. -/
def jsRound (q : ℚ) : ℚ := ((⌊q + 1 / 2⌋ : ℤ) : ℚ)

/-- JavaScript (x || d) for an optional numeric field: d when the field is
absent or zero (falsy). -/
def jsOrDefault (x : Option ℚ) (dflt : ℚ) : ℚ :=
  match x with
  | none => dflt
  | some v => if v = 0 then dflt else v

/-- DeliveryPricingService.estimateDeliveryTime: preparation baseline plus
travel time and a 5-minute buffer in distance mode when the lookup
succeeds; otherwise a fixed 15-minute delivery allowance. -/
def estimateDeliveryTime (hasApiKey : Bool) (cfg : RestaurantConfig)
    (distLookup : Except String GoogleDistance) (customerAddress : Option String) : ℚ :=
  let base := jsOrDefault cfg.preparation_time_minutes 30
  if cfg.pricing_mode == "distance" && customerAddress.isSome && hasApiKey then
    match distLookup with
    | Except.ok dres => base + jsRound (dres.duration / 60) + 5
    | Except.error _ => base + 15
  else base + 15

/-- Result of DeliveryPricingService.isDeliveryAvailable: the availability
flag, the zone label when known, and the message when unavailable.  The
distance-mode zone label interpolates the computed distance in the source;
the label text is not inspected by any claim and a fixed label stands in. -/
structure AvailabilityResult where
  available : Bool
  zone : Option String
  message : Option String
  deriving DecidableEq

/-- DeliveryPricingService.isDeliveryAvailable.  The whole body is wrapped
in try/catch: any thrown error (including a distance-lookup failure)
becomes available: false with the error's message. -/
def isDeliveryAvailable (cfg : RestaurantConfig) (distLookup : Except String GoogleDistance)
    (customerPostcode : String) (customerAddress : Option String) : AvailabilityResult :=
  if cfg.pricing_mode == "distance" && customerAddress.isSome then
    match distLookup with
    | Except.error e => { available := false, zone := none, message := some e }
    | Except.ok dres =>
      let distanceKm := dres.distance / 1000
      match maxDistanceOf ((cfg.distance_rules).getD []) with
      | none => { available := false, zone := some "km", message := none }
      | some maxDistance =>
        { available := decide (distanceKm ≤ maxDistance), zone := some "km",
          message := if maxDistance < distanceKm
            then some "Maximum delivery distance exceeded" else none }
  else if cfg.pricing_mode == "postcode" then
    match calculatePostcodeBasedFee ((cfg.postcode_rules).getD [])
        cfg.default_delivery_fee customerPostcode with
    | Except.ok fz => { available := true, zone := some fz.2, message := none }
    | Except.error e => { available := false, zone := none, message := some e }
  else { available := false, zone := none, message := some "Invalid delivery configuration" }

/-- The outcome of DeliveryPricingService.calculateDeliveryFee: success with
the final fee and ancillary data, or the catch-all failure object built from
the thrown/business error (success: false, error, message). -/
inductive FeeResult where
  | ok (deliveryFee originalFee : ℚ) (calculationMethod : String)
      (minimumOrder : MinimumOrderCheck) (estimatedTime : ℚ) (zone : Option String)
  | err (error : String) (message : String)
  deriving DecidableEq

/-- The error tag of a failed fee calculation (the result object's error
field), none on success. -/
def feeErrorTag : FeeResult → Option String
  | FeeResult.ok _ _ _ _ _ _ => none
  | FeeResult.err e _ => some e

/-- The final delivery fee of a successful calculation, none on failure. -/
def feeAmount : FeeResult → Option ℚ
  | FeeResult.ok f _ _ _ _ _ => some f
  | FeeResult.err _ _ => none

/-- DeliveryPricingService.calculateDeliveryFee.  configLookup models the
getRestaurantConfig supabase read (none: not found).  When availability
fails the result is the fixed business rejection with error
"Outside delivery area"; any error thrown later is caught and wrapped with
the generic message. -/
def calculateDeliveryFee (configLookup : Option RestaurantConfig) (hasApiKey : Bool)
    (distLookup : Except String GoogleDistance) (customerPostcode : String)
    (customerAddress : Option String) (orderValue : ℚ) : FeeResult :=
  match configLookup with
  | none =>
    FeeResult.err "Restaurant configuration not found"
      "Unable to calculate delivery fee. Please try again."
  | some cfg =>
    let avail := isDeliveryAvailable cfg distLookup customerPostcode customerAddress
    if ! avail.available then
      FeeResult.err "Outside delivery area"
        (avail.message.getD "Sorry, we do not deliver to this area")
    else
      let feeStep : Except String (ℚ × String) :=
        if cfg.pricing_mode == "distance" then
          (calculateDistanceBasedFee hasApiKey ((cfg.distance_rules).getD []) distLookup).map
            (fun fr => (fr.1, "distance-based"))
        else if cfg.pricing_mode == "postcode" then
          (calculatePostcodeBasedFee ((cfg.postcode_rules).getD [])
              cfg.default_delivery_fee customerPostcode).map
            (fun fz => (fz.1, "postcode-based"))
        else Except.ok (0, "")
      match feeStep with
      | Except.error e => FeeResult.err e "Unable to calculate delivery fee. Please try again."
      | Except.ok fr =>
        FeeResult.ok (applyOrderValueDiscounts fr.1 orderValue ((cfg.order_value_discounts).getD []))
          fr.1 fr.2 (checkMinimumOrder orderValue ((cfg.minimum_order_rules).getD []) customerPostcode)
          (estimateDeliveryTime hasApiKey cfg distLookup customerAddress) avail.zone

/-! ### Facts about the stable-sorted searches used by the pricing engine -/

theorem head_insertionSort_byLen {l rest : List PostcodeRule} {m : PostcodeRule}
    (h : List.insertionSort byPatternLenDesc l = m :: rest) :
    m ∈ l ∧ ∀ y ∈ l, y.postcode_pattern.length ≤ m.postcode_pattern.length := by
  have hperm := List.perm_insertionSort byPatternLenDesc l
  have hsorted := List.sorted_insertionSort byPatternLenDesc l
  rw [h] at hperm hsorted
  constructor
  · exact hperm.mem_iff.1 (List.mem_cons_self m rest)
  · intro y hy
    rcases List.mem_cons.1 (hperm.mem_iff.2 hy) with hym | hyr
    · rw [hym]
    · exact (List.pairwise_cons.1 hsorted).1 y hyr

theorem firstDiscountFor_eq_none {v : ℚ} :
    ∀ {l : List ValueDiscount}, (∀ d ∈ l, ¬ d.min_order_value ≤ v) →
      firstDiscountFor v l = none := by
  intro l
  induction l with
  | nil => intro _; rfl
  | cons d rest ih =>
    intro h
    rw [firstDiscountFor, if_neg (h d (List.mem_cons_self d rest))]
    exact ih fun x hx => h x (List.mem_cons_of_mem d hx)

theorem firstDiscountFor_sorted_spec {v : ℚ} :
    ∀ {l : List ValueDiscount}, l.Pairwise byMinValueDesc →
      ∀ d0 ∈ l, d0.min_order_value ≤ v →
        ∃ m, firstDiscountFor v l = some m ∧ m ∈ l ∧ m.min_order_value ≤ v ∧
          ∀ y ∈ l, y.min_order_value ≤ v → y.min_order_value ≤ m.min_order_value := by
  intro l
  induction l with
  | nil => intro _ d0 h0; exact absurd h0 (List.not_mem_nil d0)
  | cons d rest ih =>
    intro hpw d0 h0 hd0
    by_cases hd : d.min_order_value ≤ v
    · refine ⟨d, ?_, List.mem_cons_self d rest, hd, ?_⟩
      · rw [firstDiscountFor, if_pos hd]
      · intro y hy _
        rcases List.mem_cons.1 hy with hym | hyr
        · rw [hym]
        · exact (List.pairwise_cons.1 hpw).1 y hyr
    · have hd0r : d0 ∈ rest := by
        rcases List.mem_cons.1 h0 with h0d | h0r
        · rw [h0d] at hd0; exact absurd hd0 hd
        · exact h0r
      obtain ⟨m, hm, hmmem, hmle, hmax⟩ := ih (List.pairwise_cons.1 hpw).2 d0 hd0r hd0
      refine ⟨m, ?_, List.mem_cons_of_mem d hmmem, hmle, ?_⟩
      · rw [firstDiscountFor, if_neg hd]
        exact hm
      · intro y hy hyv
        rcases List.mem_cons.1 hy with hym | hyr
        · rw [hym] at hyv; exact absurd hyv hd
        · exact hmax y hyr hyv

theorem firstTierFor_eq_none {v : ℚ} :
    ∀ {l : List DistanceRule}, (∀ t ∈ l, ¬ v ≤ t.max_distance) →
      firstTierFor v l = none := by
  intro l
  induction l with
  | nil => intro _; rfl
  | cons t rest ih =>
    intro h
    rw [firstTierFor, if_neg (h t (List.mem_cons_self t rest))]
    exact ih fun x hx => h x (List.mem_cons_of_mem t hx)

theorem firstTierFor_sorted_spec {v : ℚ} :
    ∀ {l : List DistanceRule}, l.Pairwise byMaxDistanceAsc →
      ∀ t0 ∈ l, v ≤ t0.max_distance →
        ∃ m, firstTierFor v l = some m ∧ m ∈ l ∧ v ≤ m.max_distance ∧
          ∀ y ∈ l, v ≤ y.max_distance → m.max_distance ≤ y.max_distance := by
  intro l
  induction l with
  | nil => intro _ t0 h0; exact absurd h0 (List.not_mem_nil t0)
  | cons t rest ih =>
    intro hpw t0 h0 ht0
    by_cases ht : v ≤ t.max_distance
    · refine ⟨t, ?_, List.mem_cons_self t rest, ht, ?_⟩
      · rw [firstTierFor, if_pos ht]
      · intro y hy _
        rcases List.mem_cons.1 hy with hym | hyr
        · rw [hym]
        · exact (List.pairwise_cons.1 hpw).1 y hyr
    · have ht0r : t0 ∈ rest := by
        rcases List.mem_cons.1 h0 with h0t | h0r
        · rw [h0t] at ht0; exact absurd ht0 ht
        · exact h0r
      obtain ⟨m, hm, hmmem, hmle, hmin⟩ := ih (List.pairwise_cons.1 hpw).2 t0 ht0r ht0
      refine ⟨m, ?_, List.mem_cons_of_mem t hmmem, hmle, ?_⟩
      · rw [firstTierFor, if_neg ht]
        exact hm
      · intro y hy hyv
        rcases List.mem_cons.1 hy with hym | hyr
        · rw [hym] at hyv; exact absurd hyv ht
        · exact hmin y hyr hyv

theorem foldl_max_lt {f : List ℚ} {a x : ℚ} (ha : a < x) (hf : ∀ b ∈ f, b < x) :
    f.foldl max a < x := by
  induction f generalizing a with
  | nil => exact ha
  | cons c rest ih =>
    rw [List.foldl_cons]
    exact ih (max_lt ha (hf c (List.mem_cons_self c rest)))
      fun b hb => hf b (List.mem_cons_of_mem c hb)

/-! ### C3: postcode zone matching -/

/-- The comparison the claim describes, taken from the spec's words: both
sides stripped of whitespace and uppercased. -/
def specNormalizedPattern (s : String) : String :=
  ⟨(s.data.filter (fun c => ! jsIsWhitespace c)).map Char.toUpper⟩

/-- Counterexample to C3 as stated: the pattern "YO103BP" and the postcode
"YO10 3BP" are equal once whitespace is stripped and case is folded, so the
claim requires the exact-match fee 5 to be returned; the code instead
normalizes only the input (re-inserting a space before the final three
characters) and leaves patterns untouched apart from uppercasing, so no rule
matches and the lookup fails. -/
theorem claim_C3_counterexample :
    specNormalizedPattern "YO103BP" = specNormalizedPattern "YO10 3BP" ∧
    calculatePostcodeBasedFee [⟨"YO103BP", 5⟩] none "YO10 3BP"
      = Except.error "Postcode not in delivery area" := by
  constructor
  · rfl
  · rfl

/-- C3 (amended): the input postcode is normalized (whitespace stripped,
uppercased, one space re-inserted before the final three characters when
longer than three); rule patterns are only uppercased.  An exactly matching
rule's fee is returned when one exists; otherwise the fee of a matching rule
whose uppercased pattern is a prefix of the normalized postcode and whose
pattern length is maximal among all such rules. -/
theorem claim_C3_longest_prefix_wins (rules : List PostcodeRule) (defaultFee : Option ℚ)
    (pc : String) :
    ((∃ r ∈ rules, upperStr r.postcode_pattern = normalizePostcode pc) →
      ∃ r ∈ rules, upperStr r.postcode_pattern = normalizePostcode pc ∧
        calculatePostcodeBasedFee rules defaultFee pc = Except.ok (r.fee, r.postcode_pattern)) ∧
    ((∀ r ∈ rules, upperStr r.postcode_pattern ≠ normalizePostcode pc) →
      ∀ r0 ∈ rules,
        (upperStr r0.postcode_pattern).data.isPrefixOf (normalizePostcode pc).data = true →
        ∃ m ∈ rules,
          (upperStr m.postcode_pattern).data.isPrefixOf (normalizePostcode pc).data = true ∧
          calculatePostcodeBasedFee rules defaultFee pc = Except.ok (m.fee, m.postcode_pattern) ∧
          ∀ r1 ∈ rules,
            (upperStr r1.postcode_pattern).data.isPrefixOf (normalizePostcode pc).data = true →
            r1.postcode_pattern.length ≤ m.postcode_pattern.length) := by
  constructor
  · rintro ⟨r, hr, hreq⟩
    cases hfind : rules.find? (fun x => upperStr x.postcode_pattern == normalizePostcode pc) with
    | none =>
      exfalso
      have := List.find?_eq_none.1 hfind r hr
      simp only [beq_iff_eq] at this
      exact this hreq
    | some rf =>
      have hpred := List.find?_some hfind
      simp only [beq_iff_eq] at hpred
      refine ⟨rf, List.mem_of_find?_eq_some hfind, hpred, ?_⟩
      simp only [calculatePostcodeBasedFee, hfind]
  · intro hnone r0 hr0 hpfx0
    have hfind : rules.find? (fun x => upperStr x.postcode_pattern == normalizePostcode pc)
        = none := by
      apply List.find?_eq_none.2
      intro x hx
      simp only [beq_iff_eq]
      exact hnone x hx
    have hr0f : r0 ∈ rules.filter
        (fun r => (upperStr r.postcode_pattern).data.isPrefixOf (normalizePostcode pc).data) := by
      exact List.mem_filter.2 ⟨hr0, hpfx0⟩
    cases hs : List.insertionSort byPatternLenDesc (rules.filter
        (fun r => (upperStr r.postcode_pattern).data.isPrefixOf (normalizePostcode pc).data)) with
    | nil =>
      exfalso
      have hperm := List.perm_insertionSort byPatternLenDesc (rules.filter
        (fun r => (upperStr r.postcode_pattern).data.isPrefixOf (normalizePostcode pc).data))
      rw [hs] at hperm
      exact (List.not_mem_nil r0) (hperm.mem_iff.2 hr0f)
    | cons m rest =>
      obtain ⟨hmF, hmax⟩ := head_insertionSort_byLen hs
      have hmem := List.mem_filter.1 hmF
      refine ⟨m, hmem.1, hmem.2, ?_, ?_⟩
      · simp only [calculatePostcodeBasedFee, hfind, hs]
      · intro r1 hr1 hpfx1
        exact hmax r1 (List.mem_filter.2 ⟨hr1, hpfx1⟩)

def exPostcodeRules : List PostcodeRule := [⟨"YO10", 3⟩, ⟨"YO", 4⟩]

/-- Witness for C3 (amended), with the rule set YO10 -> 3, YO -> 4 and the
postcode "YO10 3BP": no exact match, and the longest matching pattern wins. -/
theorem claim_C3_witness :
    ∃ m ∈ exPostcodeRules,
      (upperStr m.postcode_pattern).data.isPrefixOf (normalizePostcode "YO10 3BP").data = true ∧
      calculatePostcodeBasedFee exPostcodeRules none "YO10 3BP"
        = Except.ok (m.fee, m.postcode_pattern) ∧
      ∀ r1 ∈ exPostcodeRules,
        (upperStr r1.postcode_pattern).data.isPrefixOf (normalizePostcode "YO10 3BP").data = true →
        r1.postcode_pattern.length ≤ m.postcode_pattern.length :=
  (claim_C3_longest_prefix_wins exPostcodeRules none "YO10 3BP").2 (by decide)
    ⟨"YO10", 3⟩ (List.mem_cons_self _ _) (by decide)

/-! ### C4: value discounts apply exactly one rule -/

/-- C4: with the rules sorted descending by min_order_value, the transformed
fee of the first satisfied rule (a satisfied rule of maximal threshold) is
returned; with no satisfied rule the base fee is returned unchanged; the
result is always a single rule's transformation, never a combination. -/
theorem claim_C4_exactly_one_discount (baseFee orderValue : ℚ)
    (discounts : List ValueDiscount) :
    ((∀ d ∈ discounts, ¬ d.min_order_value ≤ orderValue) →
      applyOrderValueDiscounts baseFee orderValue discounts = baseFee) ∧
    (∀ d0 ∈ discounts, d0.min_order_value ≤ orderValue →
      ∃ d ∈ discounts, d.min_order_value ≤ orderValue ∧
        applyOrderValueDiscounts baseFee orderValue discounts = applyDiscountTo d baseFee ∧
        ∀ d1 ∈ discounts, d1.min_order_value ≤ orderValue →
          d1.min_order_value ≤ d.min_order_value) := by
  have hperm := List.perm_insertionSort byMinValueDesc discounts
  have hsorted := List.sorted_insertionSort byMinValueDesc discounts
  constructor
  · intro hall
    have hnone : firstDiscountFor orderValue
        (List.insertionSort byMinValueDesc discounts) = none :=
      firstDiscountFor_eq_none fun d hd => hall d (hperm.mem_iff.1 hd)
    simp only [applyOrderValueDiscounts, hnone]
  · intro d0 h0 hd0
    obtain ⟨m, hm, hmmem, hmle, hmax⟩ :=
      firstDiscountFor_sorted_spec hsorted d0 (hperm.mem_iff.2 h0) hd0
    refine ⟨m, hperm.mem_iff.1 hmmem, hmle, ?_, ?_⟩
    · simp only [applyOrderValueDiscounts, hm]
    · intro d1 h1 hd1
      exact hmax d1 (hperm.mem_iff.2 h1) hd1

def exDiscounts : List ValueDiscount :=
  [⟨25, DiscountKind.free_delivery, 0⟩, ⟨20, DiscountKind.fixed_reduction, 1⟩,
   ⟨15, DiscountKind.percentage, 50⟩]

/-- Witness for C4 with the default configuration's discount ladder and an
order value of 22: the 20-threshold fixed reduction (and no other rule)
transforms the fee. -/
theorem claim_C4_witness :
    ∃ d ∈ exDiscounts, d.min_order_value ≤ (22 : ℚ) ∧
      applyOrderValueDiscounts (7 / 2) 22 exDiscounts = applyDiscountTo d (7 / 2) ∧
      ∀ d1 ∈ exDiscounts, d1.min_order_value ≤ (22 : ℚ) →
        d1.min_order_value ≤ d.min_order_value :=
  (claim_C4_exactly_one_discount (7 / 2) 22 exDiscounts).2
    ⟨20, DiscountKind.fixed_reduction, 1⟩
    (List.mem_cons_of_mem _ (List.mem_cons_self _ _)) (by norm_num)

/-! ### C5: distance tier matching -/

/-- C5: the fee is the one of the first tier in ascending max_distance order
whose bound is at least the computed distance (equivalently, a satisfied
tier of minimal bound); when the distance exceeds every bound the fee
computation reports the thrown unavailability error and isDeliveryAvailable
reports unavailable. -/
theorem claim_C5_distance_tiers (cfg : RestaurantConfig) (rules : List DistanceRule)
    (hmode : cfg.pricing_mode = "distance") (hrules : cfg.distance_rules = some rules)
    (dres : GoogleDistance) (pc addr : String) :
    (∀ t0 ∈ rules, dres.distance / 1000 ≤ t0.max_distance →
      ∃ t ∈ rules, dres.distance / 1000 ≤ t.max_distance ∧
        calculateDistanceBasedFee true rules (Except.ok dres)
          = Except.ok (t.fee, dres.distance / 1000) ∧
        ∀ y ∈ rules, dres.distance / 1000 ≤ y.max_distance →
          t.max_distance ≤ y.max_distance) ∧
    (rules ≠ [] → (∀ t ∈ rules, t.max_distance < dres.distance / 1000) →
      calculateDistanceBasedFee true rules (Except.ok dres)
        = Except.error "Delivery not available beyond the maximum distance" ∧
      (isDeliveryAvailable cfg (Except.ok dres) pc (some addr)).available = false) := by
  have hperm := List.perm_insertionSort byMaxDistanceAsc rules
  have hsorted := List.sorted_insertionSort byMaxDistanceAsc rules
  constructor
  · intro t0 h0 ht0
    obtain ⟨m, hm, hmmem, hmle, hmin⟩ :=
      firstTierFor_sorted_spec hsorted t0 (hperm.mem_iff.2 h0) ht0
    refine ⟨m, hperm.mem_iff.1 hmmem, hmle, ?_, ?_⟩
    · simp only [calculateDistanceBasedFee, Bool.not_true, Bool.false_eq_true,
        if_false, hm]
    · intro y hy hyv
      exact hmin y (hperm.mem_iff.2 hy) hyv
  · intro hne hall
    have hnone : firstTierFor (dres.distance / 1000)
        (List.insertionSort byMaxDistanceAsc rules) = none :=
      firstTierFor_eq_none fun t ht =>
        not_le.2 (hall t (hperm.mem_iff.1 ht))
    constructor
    · simp only [calculateDistanceBasedFee, Bool.not_true, Bool.false_eq_true,
        if_false, hnone]
    · obtain ⟨r, rs, hcons⟩ := List.exists_cons_of_ne_nil hne
      have hmaxlt : (rs.map (fun x => x.max_distance)).foldl max r.max_distance
          < dres.distance / 1000 := by
        apply foldl_max_lt
        · exact hall r (by rw [hcons]; exact List.mem_cons_self r rs)
        · intro b hb
          obtain ⟨y, hy, hyb⟩ := List.mem_map.1 hb
          rw [← hyb]
          exact hall y (by rw [hcons]; exact List.mem_cons_of_mem r hy)
      simp only [isDeliveryAvailable, hmode, hrules, hcons]
      simp only [beq_self_eq_true, Option.isSome_some, Bool.and_true, Bool.true_and,
        if_true, Option.getD_some, maxDistanceOf]
      simp [decide_eq_false_iff_not, not_le.2 hmaxlt]

def exTiers : List DistanceRule := [⟨1, 3 / 2⟩, ⟨2, 5 / 2⟩, ⟨3, 7 / 2⟩]

def cfgDistanceExample : RestaurantConfig :=
  { pricing_mode := "distance", restaurant_address := "Golden Fish, York",
    distance_rules := some exTiers, postcode_rules := none,
    order_value_discounts := none, minimum_order_rules := none,
    default_delivery_fee := none, preparation_time_minutes := some 35 }

/-- Witness for C5, scenario C: tiers 1km/2km/3km with fees 1.50/2.50/3.50;
a 2.4km distance gets the 3km tier, a 6km distance is unavailable. -/
theorem claim_C5_witness :
    (∃ t ∈ exTiers, (2400 : ℚ) / 1000 ≤ t.max_distance ∧
      calculateDistanceBasedFee true exTiers (Except.ok ⟨2400, 300⟩)
        = Except.ok (t.fee, (2400 : ℚ) / 1000) ∧
      ∀ y ∈ exTiers, (2400 : ℚ) / 1000 ≤ y.max_distance →
        t.max_distance ≤ y.max_distance) ∧
    (calculateDistanceBasedFee true exTiers (Except.ok ⟨6000, 720⟩)
        = Except.error "Delivery not available beyond the maximum distance" ∧
      (isDeliveryAvailable cfgDistanceExample (Except.ok ⟨6000, 720⟩) "YO1 7HU"
        (some "1 Main Street")).available = false) :=
  ⟨(claim_C5_distance_tiers cfgDistanceExample exTiers rfl rfl ⟨2400, 300⟩ "YO1 7HU"
      "1 Main Street").1 ⟨3, 7 / 2⟩
      (List.mem_cons_of_mem _ (List.mem_cons_of_mem _ (List.mem_cons_self _ _)))
      (by norm_num),
   (claim_C5_distance_tiers cfgDistanceExample exTiers rfl rfl ⟨6000, 720⟩ "YO1 7HU"
      "1 Main Street").2 (by simp [exTiers])
      (by simp only [exTiers, List.forall_mem_cons, List.forall_mem_nil]; norm_num)⟩

/-! ### C7: collaborator failure versus business rejection -/

/-- Counterexample to C7 as stated: a distance-lookup failure (the oracle
throwing "Google Maps API error: UNKNOWN_ERROR") is reported with exactly
the same error tag, "Outside delivery area", as the genuine out-of-range
business rejection (distance 6km against a 3km maximum), because
isDeliveryAvailable catches every thrown error and maps it to
available: false. -/
theorem claim_C7_counterexample :
    feeErrorTag (calculateDeliveryFee (some cfgDistanceExample) true
        (Except.error "Google Maps API error: UNKNOWN_ERROR") "YO1 7HU"
        (some "1 Main Street") 0)
      = some "Outside delivery area" ∧
    feeErrorTag (calculateDeliveryFee (some cfgDistanceExample) true
        (Except.ok ⟨6000, 720⟩) "YO1 7HU" (some "1 Main Street") 0)
      = some "Outside delivery area" := by
  constructor
  · simp [calculateDeliveryFee, isDeliveryAvailable, cfgDistanceExample, feeErrorTag]
  · have hfalse : (isDeliveryAvailable cfgDistanceExample (Except.ok ⟨6000, 720⟩)
        "YO1 7HU" (some "1 Main Street")).available = false := by
      simp only [isDeliveryAvailable, cfgDistanceExample, exTiers, maxDistanceOf,
        List.map_cons, List.map_nil, List.foldl_cons, List.foldl_nil]
      norm_num [max_def]
    simp [calculateDeliveryFee, hfalse, feeErrorTag]

/-- C7 (amended): in distance mode every distance-lookup failure is caught
by the availability check and reported as the business rejection tag
"Outside delivery area"; only the free-text message (the collaborator's
error text) distinguishes it from a genuine out-of-range rejection. -/
theorem claim_C7_infra_failure_same_tag (cfg : RestaurantConfig)
    (hmode : cfg.pricing_mode = "distance") (hasApiKey : Bool) (e pc addr : String)
    (orderValue : ℚ) :
    calculateDeliveryFee (some cfg) hasApiKey (Except.error e) pc (some addr) orderValue
      = FeeResult.err "Outside delivery area" e := by
  simp [calculateDeliveryFee, isDeliveryAvailable, hmode]

/-- Witness for C7 (amended) at a concrete failing lookup. -/
theorem claim_C7_witness :
    calculateDeliveryFee (some cfgDistanceExample) true
        (Except.error "Google Maps API error: UNKNOWN_ERROR") "YO1 7HU"
        (some "1 Main Street") 0
      = FeeResult.err "Outside delivery area" "Google Maps API error: UNKNOWN_ERROR" :=
  claim_C7_infra_failure_same_tag cfgDistanceExample rfl true
    "Google Maps API error: UNKNOWN_ERROR" "YO1 7HU" "1 Main Street" 0

/-! ### Order creation (src/services/orderService.ts)

The Postgres client (pg) is modelled as committed state plus an optional
in-transaction draft: BEGIN snapshots the committed state, INSERTs apply to
the draft (or autocommit when no transaction is open), COMMIT installs the
draft, ROLLBACK discards it.  Each of the four awaited queries of
createOrder can fail, per a failure oracle; the catch block issues ROLLBACK
and rethrows.  The resend email API is an oracle as well;
EmailService.sendOrderConfirmation wraps it in try/catch and never throws. -/

inductive DeliveryMethod where
  | delivery
  | collection
  deriving DecidableEq, Inhabited

structure OrderItem where
  name : String
  price : ℚ
  quantity : ℚ
  deriving DecidableEq, Inhabited

structure Promotion where
  discount : Option ℚ
  deriving DecidableEq, Inhabited

structure CustomerInfo where
  firstName : String
  lastName : String
  email : String
  phone : String
  deriving DecidableEq, Inhabited

structure DeliveryInfo where
  method : DeliveryMethod
  address : String
  city : String
  postcode : String
  instructions : Option String
  deriving DecidableEq, Inhabited

structure CreateOrderData where
  customer : CustomerInfo
  items : List OrderItem
  delivery : DeliveryInfo
  promotions : Option (List Promotion)
  specialInstructions : Option String
  paymentMethod : String
  isLoggedIn : Bool
  accountType : String
  deriving DecidableEq, Inhabited

structure OrderRow where
  id : Nat
  order_number : String
  restaurant_id : Nat
  customer_name : String
  customer_email : String
  customer_phone : String
  items : List OrderItem
  delivery_type : DeliveryMethod
  subtotal : ℚ
  delivery_fee : ℚ
  discount : ℚ
  total : ℚ
  status : String
  payment_method : String
  payment_status : String
  estimated_time : ℚ
  deriving DecidableEq, Inhabited

structure HistoryRow where
  order_id : Nat
  status : String
  notes : Option String
  deriving DecidableEq, Inhabited

structure PgState where
  orders : List OrderRow
  history : List HistoryRow
  deriving DecidableEq, Inhabited

structure PgClient where
  committed : PgState
  draft : Option PgState
  deriving DecidableEq, Inhabited

inductive PgStmt where
  | begin
  | insertOrder (row : OrderRow)
  | insertHistory (row : HistoryRow)
  | commit
  | rollback

/-- Semantics of one statement on the connection: BEGIN snapshots, inserts
write to the open draft (autocommit without one), COMMIT installs the draft,
ROLLBACK discards it. -/
def applyStmt (c : PgClient) : PgStmt → PgClient
  | PgStmt.begin => { c with draft := some c.committed }
  | PgStmt.insertOrder row =>
    match c.draft with
    | some d => { c with draft := some { d with orders := d.orders ++ [row] } }
    | none => { c with committed := { c.committed with orders := c.committed.orders ++ [row] } }
  | PgStmt.insertHistory row =>
    match c.draft with
    | some d => { c with draft := some { d with history := d.history ++ [row] } }
    | none => { c with committed := { c.committed with history := c.committed.history ++ [row] } }
  | PgStmt.commit =>
    match c.draft with
    | some d => { committed := d, draft := none }
    | none => c
  | PgStmt.rollback => { c with draft := none }

/-- The four awaited queries of createOrder that can fail. -/
inductive DbStep where
  | stepBegin
  | stepInsertOrder
  | stepInsertHistory
  | stepCommit
  deriving DecidableEq

structure EmailSendResult where
  success : Bool
  error : Option String
  deriving DecidableEq, Inhabited

/-- EmailService.sendOrderConfirmation: the resend API call is the oracle
(ok: message id, error: thrown message); the whole body is wrapped in
try/catch, so a failure becomes success: false and is never rethrown. -/
def sendOrderConfirmation (resendOutcome : Except String String) : EmailSendResult :=
  match resendOutcome with
  | Except.ok _ => { success := true, error := none }
  | Except.error e => { success := false, error := some e }

structure CreateOrderResult where
  order : OrderRow
  emailSent : Bool
  deriving DecidableEq, Inhabited

/-- Sum of price * quantity over the line items (the subtotal reduce). -/
def orderSubtotal (data : CreateOrderData) : ℚ :=
  data.items.foldl (fun s i => s + i.price * i.quantity) 0

/-- The flat delivery fee of orderService.createOrder: 2.50 for delivery,
0 for collection ("Default delivery fee" in the source). -/
def orderDeliveryFee (data : CreateOrderData) : ℚ :=
  match data.delivery.method with
  | DeliveryMethod.delivery => 5 / 2
  | DeliveryMethod.collection => 0

/-- Sum of the promotions' discounts (promotions and each discount field
optional). -/
def orderDiscount (data : CreateOrderData) : ℚ :=
  ((data.promotions).getD []).foldl (fun s p => s + (p.discount).getD 0) 0

/-- config.defaultPrepTimes: 30 minutes for delivery, 20 for collection
(src/config/environment.ts defaults). -/
def orderEstimatedTime (data : CreateOrderData) : ℚ :=
  match data.delivery.method with
  | DeliveryMethod.delivery => 30
  | DeliveryMethod.collection => 20

/-- The id the serial column assigns to the inserted row. -/
def nextOrderId (c : PgClient) : Nat :=
  (match c.draft with
   | some d => d.orders.length
   | none => c.committed.orders.length) + 1

/-- The order row inserted by createOrder (the INSERT INTO orders values). -/
def createdRow (data : CreateOrderData) (counterValue year month day : Nat)
    (c1 : PgClient) : OrderRow :=
  { id := nextOrderId c1,
    order_number := generateDailySequential year month day counterValue,
    restaurant_id := 1,
    customer_name := data.customer.firstName ++ " " ++ data.customer.lastName,
    customer_email := data.customer.email,
    customer_phone := data.customer.phone,
    items := data.items,
    delivery_type := data.delivery.method,
    subtotal := orderSubtotal data,
    delivery_fee := orderDeliveryFee data,
    discount := orderDiscount data,
    total := orderSubtotal data + orderDeliveryFee data - orderDiscount data,
    status := "received",
    payment_method := data.paymentMethod,
    payment_status := "pending",
    estimated_time := orderEstimatedTime data }

/-- OrderService.createOrder: BEGIN; mint the order number (counterValue is
the atomic increment's result); compute totals; INSERT the order row;
INSERT the initial "received" status history row; COMMIT; then send the
confirmation email (best-effort) and return the order together with the
email success flag.  Any failing query takes the catch path: ROLLBACK and
rethrow. -/
def createOrder (data : CreateOrderData) (counterValue year month day : Nat)
    (dbFail : DbStep → Bool) (resendOutcome : Except String String)
    (client : PgClient) : Except String CreateOrderResult × PgClient :=
  if dbFail DbStep.stepBegin then
    (Except.error "database error", applyStmt client PgStmt.rollback)
  else
    let c1 := applyStmt client PgStmt.begin
    let row := createdRow data counterValue year month day c1
    if dbFail DbStep.stepInsertOrder then
      (Except.error "database error", applyStmt c1 PgStmt.rollback)
    else
      let c2 := applyStmt c1 (PgStmt.insertOrder row)
      let hist : HistoryRow :=
        { order_id := row.id, status := "received",
          notes := some "Order received and confirmed" }
      if dbFail DbStep.stepInsertHistory then
        (Except.error "database error", applyStmt c2 PgStmt.rollback)
      else
        let c3 := applyStmt c2 (PgStmt.insertHistory hist)
        if dbFail DbStep.stepCommit then
          (Except.error "database error", applyStmt c3 PgStmt.rollback)
        else
          let c4 := applyStmt c3 PgStmt.commit
          let emailResult := sendOrderConfirmation resendOutcome
          (Except.ok { order := row, emailSent := emailResult.success }, c4)

/-- Elimination for a successful createOrder run: every query succeeded, the
returned result is the inserted row with the email flag, and the final
connection state has committed exactly the order row and its history row. -/
theorem createOrder_ok_elim (data : CreateOrderData) (cnt y m d : Nat)
    (dbFail : DbStep → Bool) (ro : Except String String) (client : PgClient)
    (r : CreateOrderResult)
    (hok : (createOrder data cnt y m d dbFail ro client).1 = Except.ok r) :
    r = { order := createdRow data cnt y m d (applyStmt client PgStmt.begin),
          emailSent := (sendOrderConfirmation ro).success } ∧
    (createOrder data cnt y m d dbFail ro client).2
      = { committed :=
            { orders := client.committed.orders
                ++ [createdRow data cnt y m d (applyStmt client PgStmt.begin)],
              history := client.committed.history
                ++ [{ order_id :=
                        (createdRow data cnt y m d (applyStmt client PgStmt.begin)).id,
                      status := "received",
                      notes := some "Order received and confirmed" }] },
          draft := none } := by
  cases h1 : dbFail DbStep.stepBegin with
  | true => simp [createOrder, h1] at hok
  | false =>
    cases h2 : dbFail DbStep.stepInsertOrder with
    | true => simp [createOrder, h1, h2] at hok
    | false =>
      cases h3 : dbFail DbStep.stepInsertHistory with
      | true => simp [createOrder, h1, h2, h3] at hok
      | false =>
        cases h4 : dbFail DbStep.stepCommit with
        | true => simp [createOrder, h1, h2, h3, h4] at hok
        | false =>
          simp only [createOrder, h1, h2, h3, h4, Bool.false_eq_true, if_false] at hok ⊢
          constructor
          · exact (Except.ok.inj hok).symm
          · simp [applyStmt]

/-! ### C2: the order insert and its history insert are one atomic unit -/

/-- C2: whenever createOrder returns an error, the committed database state
is exactly what it was before the call (no partially-created order, no
orphaned history row) and no transaction is left open; the minted order
number is simply discarded with the rolled-back transaction. -/
theorem claim_C2_transaction_rollback (data : CreateOrderData) (cnt y m d : Nat)
    (dbFail : DbStep → Bool) (ro : Except String String) (client : PgClient) (e : String)
    (hfail : (createOrder data cnt y m d dbFail ro client).1 = Except.error e) :
    ((createOrder data cnt y m d dbFail ro client).2).committed = client.committed ∧
    ((createOrder data cnt y m d dbFail ro client).2).draft = none := by
  cases h1 : dbFail DbStep.stepBegin with
  | true => simp [createOrder, h1, applyStmt]
  | false =>
    cases h2 : dbFail DbStep.stepInsertOrder with
    | true => simp [createOrder, h1, h2, applyStmt]
    | false =>
      cases h3 : dbFail DbStep.stepInsertHistory with
      | true => simp [createOrder, h1, h2, h3, applyStmt]
      | false =>
        cases h4 : dbFail DbStep.stepCommit with
        | true => simp [createOrder, h1, h2, h3, h4, applyStmt]
        | false => simp [createOrder, h1, h2, h3, h4] at hfail

def exCustomer : CustomerInfo :=
  ⟨"Ada", "Lovelace", "ada@example.com", "07123456789"⟩

def exOrderData : CreateOrderData :=
  { customer := exCustomer,
    items := [⟨"Cod and chips", 19 / 2, 2⟩],
    delivery := ⟨DeliveryMethod.delivery, "1 Main Street", "York", "ZZ9 9ZZ", none⟩,
    promotions := none,
    specialInstructions := none,
    paymentMethod := "cash",
    isLoggedIn := false,
    accountType := "guest" }

/-- Witness for C2: a run whose history insert fails leaves an empty store
empty and no transaction open. -/
theorem claim_C2_witness :
    ((createOrder exOrderData 1 2025 10 12
        (fun s => decide (s = DbStep.stepInsertHistory)) (Except.ok "id1")
        ⟨⟨[], []⟩, none⟩).2).committed = ⟨[], []⟩ ∧
    ((createOrder exOrderData 1 2025 10 12
        (fun s => decide (s = DbStep.stepInsertHistory)) (Except.ok "id1")
        ⟨⟨[], []⟩, none⟩).2).draft = none :=
  claim_C2_transaction_rollback exOrderData 1 2025 10 12
    (fun s => decide (s = DbStep.stepInsertHistory)) (Except.ok "id1")
    ⟨⟨[], []⟩, none⟩ "database error" rfl

/-! ### C6: createOrder's delivery fee never comes from the fee calculator -/

def cfgPostcodeExample : RestaurantConfig :=
  { pricing_mode := "postcode", restaurant_address := "Golden Fish, York",
    distance_rules := none, postcode_rules := some [⟨"YO10", 3⟩],
    order_value_discounts := none, minimum_order_rules := none,
    default_delivery_fee := none, preparation_time_minutes := some 35 }

/-- Counterexample to C6 as stated: for the postcode "ZZ9 9ZZ" the fee
calculator reports the Unavailable business rejection, yet createOrder
creates the order anyway and persists the flat 2.50 fee — it never invokes
the calculator and never rejects a delivery address. -/
theorem claim_C6_counterexample :
    feeErrorTag (calculateDeliveryFee (some cfgPostcodeExample) true
        (Except.ok ⟨1000, 60⟩) "ZZ9 9ZZ" none (orderSubtotal exOrderData))
      = some "Outside delivery area" ∧
    (createOrder exOrderData 1 2025 10 12 (fun _ => false) (Except.ok "id1")
        ⟨⟨[], []⟩, none⟩).1
      = Except.ok
          { order := createdRow exOrderData 1 2025 10 12
              (applyStmt ⟨⟨[], []⟩, none⟩ PgStmt.begin),
            emailSent := true } ∧
    (createdRow exOrderData 1 2025 10 12
        (applyStmt ⟨⟨[], []⟩, none⟩ PgStmt.begin)).delivery_fee = 5 / 2 := by
  refine ⟨rfl, rfl, rfl⟩

/-- C6 (amended): createOrder never consults the delivery-fee calculator;
every successfully created order carries the flat fee 2.50 when it is a
delivery order and 0 when it is a collection order, whatever the postcode. -/
theorem claim_C6_flat_delivery_fee (data : CreateOrderData) (cnt y m d : Nat)
    (dbFail : DbStep → Bool) (ro : Except String String) (client : PgClient)
    (r : CreateOrderResult)
    (hok : (createOrder data cnt y m d dbFail ro client).1 = Except.ok r) :
    r.order.delivery_fee
      = (match data.delivery.method with
         | DeliveryMethod.delivery => (5 : ℚ) / 2
         | DeliveryMethod.collection => 0) := by
  rw [(createOrder_ok_elim data cnt y m d dbFail ro client r hok).1]
  rfl

/-- Accessor used by the concrete witnesses: the payload of a successful
createOrder result. -/
def okOrDefault (x : Except String CreateOrderResult) : CreateOrderResult :=
  match x with
  | Except.ok r => r
  | Except.error _ => default

/-- Witness for C6 (amended) on a concrete successful delivery order. -/
theorem claim_C6_witness :
    (okOrDefault (createOrder exOrderData 1 2025 10 12 (fun _ => false)
        (Except.ok "id1") ⟨⟨[], []⟩, none⟩).1).order.delivery_fee
      = (match exOrderData.delivery.method with
         | DeliveryMethod.delivery => (5 : ℚ) / 2
         | DeliveryMethod.collection => 0) :=
  claim_C6_flat_delivery_fee exOrderData 1 2025 10 12 (fun _ => false)
    (Except.ok "id1") ⟨⟨[], []⟩, none⟩ _ rfl

/-! ### C8: a failing confirmation email never fails the created order -/

/-- C8: when every database query succeeds and the confirmation email send
fails, createOrder still returns the created order, the result's email flag
is false, and the order row is committed. -/
theorem claim_C8_email_failure_nonfatal (data : CreateOrderData) (cnt y m d : Nat)
    (dbFail : DbStep → Bool) (emailErr : String) (client : PgClient)
    (hdb : ∀ s, dbFail s = false) :
    ∃ r, (createOrder data cnt y m d dbFail (Except.error emailErr) client).1
        = Except.ok r ∧
      r.emailSent = false ∧
      ((createOrder data cnt y m d dbFail (Except.error emailErr) client).2).committed.orders
        = client.committed.orders ++ [r.order] := by
  refine ⟨{ order := createdRow data cnt y m d (applyStmt client PgStmt.begin),
            emailSent := false }, ?_, rfl, ?_⟩
  · simp only [createOrder, hdb, Bool.false_eq_true, if_false]
    rfl
  · simp only [createOrder, hdb, Bool.false_eq_true, if_false]
    simp [applyStmt]

/-- Witness for C8: concrete order, all queries succeed, the email API
throws. -/
theorem claim_C8_witness :
    ∃ r, (createOrder exOrderData 1 2025 10 12 (fun _ => false)
        (Except.error "SMTP connection refused") ⟨⟨[], []⟩, none⟩).1
        = Except.ok r ∧
      r.emailSent = false ∧
      ((createOrder exOrderData 1 2025 10 12 (fun _ => false)
          (Except.error "SMTP connection refused") ⟨⟨[], []⟩, none⟩).2).committed.orders
        = (⟨⟨[], []⟩, none⟩ : PgClient).committed.orders ++ [r.order] :=
  claim_C8_email_failure_nonfatal exOrderData 1 2025 10 12 (fun _ => false)
    "SMTP connection refused" ⟨⟨[], []⟩, none⟩ (fun _ => rfl)

/-! ### C9: the persisted total satisfies the money equation -/

/-- C9: for every successfully created order, the persisted row satisfies
total = subtotal + deliveryFee - discount, subtotal is the sum of
price * quantity over the line items, and that row is the one committed. -/
theorem claim_C9_total_equation (data : CreateOrderData) (cnt y m d : Nat)
    (dbFail : DbStep → Bool) (ro : Except String String) (client : PgClient)
    (r : CreateOrderResult)
    (hok : (createOrder data cnt y m d dbFail ro client).1 = Except.ok r) :
    r.order.total = r.order.subtotal + r.order.delivery_fee - r.order.discount ∧
    r.order.subtotal = data.items.foldl (fun s i => s + i.price * i.quantity) 0 ∧
    ((createOrder data cnt y m d dbFail ro client).2).committed.orders
      = client.committed.orders ++ [r.order] := by
  obtain ⟨hr, hst⟩ := createOrder_ok_elim data cnt y m d dbFail ro client r hok
  refine ⟨?_, ?_, ?_⟩
  · rw [hr]
    rfl
  · rw [hr]
    rfl
  · rw [hst, hr]

/-- Witness for C9 on a concrete successful order. -/
theorem claim_C9_witness :
    (okOrDefault (createOrder exOrderData 1 2025 10 12 (fun _ => false)
        (Except.ok "id1") ⟨⟨[], []⟩, none⟩).1).order.total
      = (okOrDefault (createOrder exOrderData 1 2025 10 12 (fun _ => false)
          (Except.ok "id1") ⟨⟨[], []⟩, none⟩).1).order.subtotal
        + (okOrDefault (createOrder exOrderData 1 2025 10 12 (fun _ => false)
            (Except.ok "id1") ⟨⟨[], []⟩, none⟩).1).order.delivery_fee
        - (okOrDefault (createOrder exOrderData 1 2025 10 12 (fun _ => false)
            (Except.ok "id1") ⟨⟨[], []⟩, none⟩).1).order.discount ∧
    (okOrDefault (createOrder exOrderData 1 2025 10 12 (fun _ => false)
        (Except.ok "id1") ⟨⟨[], []⟩, none⟩).1).order.subtotal
      = exOrderData.items.foldl (fun s i => s + i.price * i.quantity) 0 ∧
    ((createOrder exOrderData 1 2025 10 12 (fun _ => false)
        (Except.ok "id1") ⟨⟨[], []⟩, none⟩).2).committed.orders
      = (⟨⟨[], []⟩, none⟩ : PgClient).committed.orders
        ++ [(okOrDefault (createOrder exOrderData 1 2025 10 12 (fun _ => false)
            (Except.ok "id1") ⟨⟨[], []⟩, none⟩).1).order] :=
  claim_C9_total_equation exOrderData 1 2025 10 12 (fun _ => false)
    (Except.ok "id1") ⟨⟨[], []⟩, none⟩ _ rfl

end Goldenfish
